import Mathlib

/-
Verification of the membership-reconciliation logic of the
`nd_federation_member` Ansible module (plugins/modules/nd_federation_member.py).

The module's `main` function is embedded shallowly below: the remote gateway's
observable collections become an explicit `Remote` record, each remote HTTP call
becomes an entry in a request trace, and the module's control flow (parameter
validation, primary gate, query/absent/present branches) is translated
statement by statement into total functions.
-/

namespace NdFed

/-- A desired federation member as supplied by the caller: one element of the
module's `clusters` list option, with Ansible's declared default applied
(`cluster_login_domain` defaults to "DefaultAuth").  Optional string fields
model Python values that may be `None`. -/
structure Cluster where
  cluster_hostname : Option String
  cluster_username : Option String
  cluster_password : Option String
  cluster_login_domain : String
deriving Repr, DecidableEq

/-- An observed federation member as returned by the member collection:
the fields `spec.host` and `status.memberID` accessed by the module. -/
structure Member where
  host : String
  memberID : String
deriving Repr, DecidableEq

/-- A federation object as returned by the federation collection:
the fields `spec.name` and `status.federationID` accessed by the module. -/
structure Federation where
  name : String
  federationID : String
deriving Repr, DecidableEq

/-- The `state` module parameter: one of `absent`, `present`, `query`. -/
inductive StateParam where
  | present
  | absent
  | query
deriving Repr, DecidableEq

/-- Modelled from the spec: the Remote Gateway's observable collections (spec
section 6) — the local cluster identity resource, the federation collection and
the member collection.  The member collection read returns an empty sequence
rather than an error when nothing exists (spec section 4.1). -/
structure Remote where
  localClusterName : String
  federations : List Federation
  members : List Member
deriving Repr, DecidableEq

/-- UTF-8 bytes of one character (as natural numbers): the standard one to
four byte encoding, mirroring Python's `str.encode`. -/
def charUtf8Bytes (c : Char) : List Nat :=
  let n := c.toNat
  if n < 128 then [n]
  else if n < 2048 then [192 + n / 64, 128 + n % 64]
  else if n < 65536 then [224 + n / 4096, 128 + (n / 64) % 64, 128 + n % 64]
  else [240 + n / 262144, 128 + (n / 4096) % 64, 128 + (n / 64) % 64, 128 + n % 64]

/-- UTF-8 bytes of a string. -/
def utf8Bytes (s : String) : List Nat :=
  s.toList.flatMap charUtf8Bytes

/-- The standard base64 alphabet. -/
def b64Alphabet : List Char :=
  "ABCDEFGHIJKLMNOPQRSTUVWXYZabcdefghijklmnopqrstuvwxyz0123456789+/".toList

/-- Character of the base64 alphabet at a given index. -/
def b64Char (n : Nat) : Char := b64Alphabet.getD n '='

/-- Standard base64 of a byte list: three bytes become four characters, with
trailing groups padded by `=`. -/
def b64Chunks : List Nat → List Char
  | [] => []
  | [a] => [b64Char (a / 4), b64Char (a % 4 * 16), '=', '=']
  | [a, b] => [b64Char (a / 4), b64Char (a % 4 * 16 + b / 16), b64Char (b % 16 * 4), '=']
  | a :: b :: c :: rest =>
    b64Char (a / 4) :: b64Char (a % 4 * 16 + b / 16) :: b64Char (b % 16 * 4 + c / 64) ::
      b64Char (c % 64) :: b64Chunks rest

/-- The expression `base64.b64encode(str.encode(p)).decode("utf-8")` used when
building a member payload (line 244 of the module). -/
def b64encode (s : String) : String :=
  String.mk (b64Chunks (utf8Bytes s))

/-- The member POST body `spec = {host, userName, password, loginDomain}` built
at lines 240-247 of the module; `password` holds the base64 encoding of the
supplied plaintext password. -/
structure MemberPayload where
  host : Option String
  userName : Option String
  password : Option String
  loginDomain : String
deriving Repr, DecidableEq

/-- One remote request issued by the module, in order of issue.  The three
read requests are the local-cluster-name read (line 155), the federation list
read (line 158) and the member list read (lines 167, 192, 264). -/
inductive Request where
  | getClusters
  | getFederations
  | getMembers
  | deleteMember (memberID : String)
  | deleteFederation (federationID : String)
  | postFederation (name : String)
  | postMember (payload : MemberPayload)
deriving Repr, DecidableEq

/-- Whether a request mutates remote state (POST or DELETE). -/
def Request.isMutating : Request → Bool
  | .deleteMember _ => true
  | .deleteFederation _ => true
  | .postFederation _ => true
  | .postMember _ => true
  | _ => false

/-- Whether a request is a member DELETE. -/
def Request.isDeleteMember : Request → Bool
  | .deleteMember _ => true
  | _ => false

/-- Whether a request is a member POST. -/
def Request.isPostMember : Request → Bool
  | .postMember _ => true
  | _ => false

/-- Whether a request is a federation DELETE. -/
def Request.isDeleteFederation : Request → Bool
  | .deleteFederation _ => true
  | _ => false

/-- Whether a request is a federation POST (CreateFederation). -/
def Request.isPostFederation : Request → Bool
  | .postFederation _ => true
  | _ => false

/-- The `payload_dict` accumulated by the present branch: the list under the
"DELETE" key (member paths) and the list under the "POST" key (member payloads).
The source initializes each key on first append; an absent key corresponds to
an empty list here. -/
structure PayloadDict where
  deletePaths : List String
  postPayloads : List MemberPayload
deriving Repr, DecidableEq

/-- The value held in `nd.existing` (and `nd.previous`) at exit: the initial
empty dict, a single member object, a member list, or the simulated
`payload_dict` of a dry run. -/
inductive ExistingValue where
  | emptyDict
  | obj (m : Member)
  | list (l : List Member)
  | payloads (d : PayloadDict)
deriving Repr, DecidableEq

/-- Python truthiness of `nd.existing` as tested at line 184: an empty dict and
an empty list are falsy, a member object (a nonempty dict) and a payload dict
built from at least one operation are truthy. -/
def ExistingValue.toBool : ExistingValue → Bool
  | .emptyDict => false
  | .obj _ => true
  | .list l => !l.isEmpty
  | .payloads _ => true

/-- Result of one module invocation: the ordered remote request trace, the
`fail_json` message if the run failed, and the reported state. -/
structure RunResult where
  requests : List Request
  failed : Option String
  existing : ExistingValue
  previous : ExistingValue
  proposed : Option PayloadDict
deriving Repr, DecidableEq

/-- `member_path` (line 152). -/
def memberPath : String := "/nexus/api/federation/v4/members"

/-- `federation_path` (line 151). -/
def federationPath : String := "/nexus/api/federation/v4/federations"

/-- `cluster_member_path` (lines 188, 229). -/
def clusterMemberPath (memberID : String) : String := memberPath ++ "/" ++ memberID

/-- The `fail_json` message of line 146. -/
def queryHostnameMsg : String :=
  "'cluster_hostname' is required when quering a specific federation member."

/-- The `fail_json` message of line 149. -/
def presentFieldsMsg : String :=
  "'cluster_hostname', 'cluster_username' and 'cluster_password' are required when state is present."

/-- The `fail_json` message of line 164. -/
def notPrimaryMsg : String :=
  "Local cluster is not the primary cluster in the federation. Cannot add/remove a member to this federation."

/-- Modelled from the spec: the message produced by the framework's
`required_if` check when `state=present` is given without `clusters`
(spec section 6 validation). -/
def missingClustersMsg : String :=
  "state is present but all of the following are missing: clusters"

/-- Python truthiness of an optional string value: `None` and the empty string
are falsy. -/
def truthy : Option String → Bool
  | none => false
  | some s => !s.isEmpty

/-- The validation applied to one entry of `clusters` (lines 143-149): query
mode requires a hostname; present mode requires hostname, username and
password.  Returns the `fail_json` message if the entry is rejected. -/
def clusterValidationError (state : StateParam) (c : Cluster) : Option String :=
  match state with
  | .query => if truthy c.cluster_hostname then none else some queryHostnameMsg
  | .present =>
    if truthy c.cluster_hostname && truthy c.cluster_username && truthy c.cluster_password
    then none else some presentFieldsMsg
  | .absent => none

/-- The validation loop of lines 142-149: the module fails on the first
rejected entry. -/
def validateClusters (cs : List Cluster) (state : StateParam) : Option String :=
  cs.findSome? (clusterValidationError state)

/-- The lookup `next((f for f in federation_obj if f.spec.name == local_cluster_name), None)`
(lines 162 and 193). -/
def findFederationInfo (feds : List Federation) (localName : String) : Option Federation :=
  feds.find? (fun f => f.name == localName)

/-- The query loop of lines 172-175: for each requested cluster, look up the
first observed member whose host equals the requested hostname and, when found,
overwrite `nd.existing` with that single member object. -/
def queryExisting (cs : List Cluster) (members : List Member) : ExistingValue :=
  cs.foldl
    (fun acc c =>
      match members.find? (fun m => (some m.host : Option String) == c.cluster_hostname) with
      | some m => ExistingValue.obj m
      | none => acc)
    ExistingValue.emptyDict

/-- The value of `nd.existing` after lines 170-177, before the state branches. -/
def computeExisting (cs : List Cluster) (state : StateParam) (members : List Member) :
    ExistingValue :=
  if cs ≠ [] ∧ state = .query then
    if members ≠ [] then queryExisting cs members else ExistingValue.emptyDict
  else ExistingValue.list members

/-- The removal pass of lines 206-214.  The flag argument is the `member_exists`
variable, initialized once before the loop and never reset inside it: an
observed member is scheduled for removal only when its host differs from the
local cluster name, no desired hostname matches it, and the flag has not been
set by an earlier iteration. -/
def removePass (members : List Member) (localName : String) (cs : List Cluster)
    (memberExists : Bool) : List Member :=
  match members with
  | [] => []
  | m :: rest =>
    if m.host == localName then removePass rest localName cs memberExists
    else
      let ex := memberExists || cs.any (fun c => (some m.host : Option String) == c.cluster_hostname)
      if ex then removePass rest localName cs ex
      else m :: removePass rest localName cs ex

/-- `remove_member_list` as built by lines 205-214 (flag starts false). -/
def computeRemoveList (members : List Member) (localName : String) (cs : List Cluster) :
    List Member :=
  removePass members localName cs false

/-- `add_member_list` as built by lines 216-224: a desired member is added when
no observed member's host equals its hostname (the `found` flag is reset for
each desired member). -/
def computeAddList (members : List Member) (cs : List Cluster) : List Cluster :=
  cs.filter (fun c => !(members.any (fun m => (some m.host : Option String) == c.cluster_hostname)))

/-- The present-mode plan of lines 198-224: with at most one observed member,
every desired member is an addition and nothing is removed (lines 201-203);
otherwise the removal and addition passes run. -/
def presentPlan (members : List Member) (localName : String) (cs : List Cluster) :
    List Member × List Cluster :=
  if members.length ≤ 1 then ([], cs)
  else (computeRemoveList members localName cs, computeAddList members cs)

/-- Modelled from the spec: the effect on the member collection of
`Write(member_path/id, DELETE)` — the member with that opaque ID is removed
(spec sections 3 and 6). -/
def deleteById (members : List Member) (mid : String) : List Member :=
  members.filter (fun m => !(m.memberID == mid))

/-- The absent-mode removal loop of lines 186-189: iterate the snapshot of the
member collection, and for every member whose host is not the local cluster
name issue a DELETE, which shrinks the live member collection.  Returns the
live member collection after the loop together with the DELETE trace. -/
def absentRemovals (snapshot : List Member) (localName : String) (current : List Member) :
    List Member × List Request :=
  match snapshot with
  | [] => (current, [])
  | m :: rest =>
    if m.host == localName then absentRemovals rest localName current
    else
      let res := absentRemovals rest localName (deleteById current m.memberID)
      (res.1, Request.deleteMember m.memberID :: res.2)

/-- The member payload built at lines 240-247 for one desired member. -/
def mkPayload (c : Cluster) : MemberPayload :=
  { host := c.cluster_hostname
    userName := c.cluster_username
    password := c.cluster_password.map b64encode
    loginDomain := c.cluster_login_domain }

/-- The DELETE requests of the present-mode removal loop (lines 228-230), in
list order. -/
def presentRemovalReqs (removes : List Member) : List Request :=
  removes.map (fun m => Request.deleteMember m.memberID)

/-- The member paths recorded under the "DELETE" key (lines 232-235). -/
def presentRemovalPaths (removes : List Member) : List String :=
  removes.map (fun m => clusterMemberPath m.memberID)

/-- The requests of the present-mode addition loop when not in check mode
(lines 238-261): for each addition, a federation POST when the federation
snapshot read at line 158 was empty — the snapshot is never refreshed, so the
test repeats for every addition — followed by the member POST. -/
def presentAddReqs (adds : List Cluster) (fedExists : Bool) (localName : String) :
    List Request :=
  adds.flatMap
    (fun c =>
      (if fedExists then [] else [Request.postFederation localName]) ++
        [Request.postMember (mkPayload c)])

/-- The live member collection after the present-mode removal DELETEs. -/
def applyDeletes (mems : List Member) (removes : List Member) : List Member :=
  removes.foldl (fun cur m => deleteById cur m.memberID) mems

/-- Modelled from the spec: the effect on the member collection of the member
POSTs — each successful POST attaches a member for the posted host under a
fresh remotely auto-assigned ID (spec sections 3 and 4.3). -/
def applyAdds (mems : List Member) (adds : List Cluster) : List Member :=
  (adds.foldl
    (fun st c =>
      (st.1 ++ [⟨c.cluster_hostname.getD "", "member-" ++ toString st.2⟩], st.2 + 1))
    (mems, 0)).1

/-- The `fail_json` exit: the run stops with the given message; `nd.existing`
still holds its initial empty dict. -/
def failResult (reqs : List Request) (msg : String) : RunResult :=
  { requests := reqs, failed := some msg, existing := .emptyDict
    previous := .emptyDict, proposed := none }

/-- The DELETE trace of the absent-mode removal loop followed by the re-read
of the member collection (lines 186-192), appended to the reads. -/
def absentTrace (remote : Remote) (trace1 : List Request) : List Request :=
  trace1 ++ (absentRemovals remote.members remote.localClusterName remote.members).2 ++
    [Request.getMembers]

/-- The absent branch (lines 183-196). -/
def runAbsent (remote : Remote) (trace1 : List Request) (existing0 : ExistingValue)
    (checkMode : Bool) : RunResult :=
  if existing0.toBool then
    if !checkMode then
      { requests :=
          if (absentRemovals remote.members remote.localClusterName remote.members).1.length = 1
          then
            match findFederationInfo remote.federations remote.localClusterName with
            | some f => absentTrace remote trace1 ++ [Request.deleteFederation f.federationID]
            | none => absentTrace remote trace1
          else absentTrace remote trace1
        failed := none, existing := .emptyDict, previous := existing0, proposed := none }
    else
      { requests := trace1, failed := none, existing := .emptyDict
        previous := existing0, proposed := none }
  else
    { requests := trace1, failed := none, existing := existing0
      previous := existing0, proposed := none }

/-- The present branch (lines 197-268).  The removal DELETEs of lines 228-230
are issued outside any check-mode guard; the addition POSTs of lines 257-261
are guarded by `not module.check_mode`. -/
def runPresent (remote : Remote) (cs : List Cluster) (trace1 : List Request)
    (existing0 : ExistingValue) (checkMode : Bool) : RunResult :=
  if (presentPlan remote.members remote.localClusterName cs).2 = []
      ∧ (presentPlan remote.members remote.localClusterName cs).1 = [] then
    { requests := trace1, failed := none, existing := existing0
      previous := existing0, proposed := none }
  else
    if checkMode then
      { requests :=
          trace1 ++ presentRemovalReqs (presentPlan remote.members remote.localClusterName cs).1
        failed := none
        existing := .payloads
          ⟨presentRemovalPaths (presentPlan remote.members remote.localClusterName cs).1,
            (presentPlan remote.members remote.localClusterName cs).2.map mkPayload⟩
        previous := existing0
        proposed := some
          ⟨presentRemovalPaths (presentPlan remote.members remote.localClusterName cs).1,
            (presentPlan remote.members remote.localClusterName cs).2.map mkPayload⟩ }
    else
      { requests :=
          trace1 ++ presentRemovalReqs (presentPlan remote.members remote.localClusterName cs).1 ++
            presentAddReqs (presentPlan remote.members remote.localClusterName cs).2
              (!remote.federations.isEmpty) remote.localClusterName ++ [Request.getMembers]
        failed := none
        existing := .list
          (applyAdds
            (applyDeletes remote.members (presentPlan remote.members remote.localClusterName cs).1)
            (presentPlan remote.members remote.localClusterName cs).2)
        previous := existing0
        proposed := some
          ⟨presentRemovalPaths (presentPlan remote.members remote.localClusterName cs).1,
            (presentPlan remote.members remote.localClusterName cs).2.map mkPayload⟩ }

/-- One invocation of the module's `main` (lines 112-270): the framework's
`required_if` check, the validation loop, the three observation reads, the
primary gate, and the state branches, producing the ordered remote request
trace and the reported result. -/
def run (remote : Remote) (clusters : Option (List Cluster)) (state : StateParam)
    (checkMode : Bool) : RunResult :=
  if state = .present ∧ clusters = none then
    failResult [] missingClustersMsg
  else
    match validateClusters (clusters.getD []) state with
    | some msg => failResult [] msg
    | none =>
      if remote.federations ≠ [] ∧
          findFederationInfo remote.federations remote.localClusterName = none ∧
          state ≠ .query then
        failResult [Request.getClusters, Request.getFederations] notPrimaryMsg
      else
        match state with
        | .query =>
          { requests := [Request.getClusters, Request.getFederations, Request.getMembers]
            failed := none
            existing := computeExisting (clusters.getD []) .query remote.members
            previous := computeExisting (clusters.getD []) .query remote.members
            proposed := none }
        | .absent =>
          runAbsent remote [Request.getClusters, Request.getFederations, Request.getMembers]
            (computeExisting (clusters.getD []) .absent remote.members) checkMode
        | .present =>
          runPresent remote (clusters.getD [])
            [Request.getClusters, Request.getFederations, Request.getMembers]
            (computeExisting (clusters.getD []) .present remote.members) checkMode

/-- Whether a reported value contains a given member entry: a single object
contains exactly itself, a member list contains its elements. -/
def ExistingValue.containsMember : ExistingValue → Member → Bool
  | .obj m2, m => m == m2
  | .list l, m => l.contains m
  | _, _ => false

/-- The result the query loop actually produces: the first observed member
matching the last requested hostname that matches anything, or the initial
empty dict when no requested hostname matches. -/
def lastMatchResult (cs : List Cluster) (members : List Member) : ExistingValue :=
  match cs.reverse.findSome?
      (fun c => members.find? (fun m => (some m.host : Option String) == c.cluster_hostname)) with
  | some m => ExistingValue.obj m
  | none => ExistingValue.emptyDict

/-- The live member collection left by the absent-mode removal loop. -/
def postAbsentMembers (remote : Remote) : List Member :=
  (absentRemovals remote.members remote.localClusterName remote.members).1

/-- Sample desired member with hostname "A" and full credentials. -/
def cA : Cluster := ⟨some "A", some "u", some "p", "DefaultAuth"⟩

/-- Sample desired member with hostname "B" and full credentials. -/
def cB : Cluster := ⟨some "B", some "u", some "p", "DefaultAuth"⟩

/-- Sample query request for hostname "X". -/
def cX : Cluster := ⟨some "X", none, none, "DefaultAuth"⟩

/-- Sample query request for hostname "Y". -/
def cY : Cluster := ⟨some "Y", none, none, "DefaultAuth"⟩

/-- Sample observed member with host "X". -/
def mX : Member := ⟨"X", "m1"⟩

/-- Sample observed member with host "Y". -/
def mY : Member := ⟨"Y", "m2"⟩

/-- Observed state for the C1 scenario: federation owned by "primary",
members observed in the order primary, A, C. -/
def remoteC1 : Remote :=
  ⟨"primary", [⟨"primary", "f0"⟩], [⟨"primary", "m0"⟩, ⟨"A", "m1"⟩, ⟨"C", "m2"⟩]⟩

/-- Observed state with members in the order primary, C, A, so that the
removal pass actually schedules C before the sticky flag is set. -/
def remoteC2 : Remote :=
  ⟨"primary", [⟨"primary", "f0"⟩], [⟨"primary", "m0"⟩, ⟨"C", "m2"⟩, ⟨"A", "m1"⟩]⟩

/-- Observed state whose only member is a non-local one, so that absent-mode
removals leave zero members. -/
def remoteC3 : Remote := ⟨"primary", [⟨"primary", "f0"⟩], [⟨"X", "m1"⟩]⟩

/-- Observed state with the primary member and one non-local member, so that
absent-mode removals leave exactly one member. -/
def remoteW3 : Remote := ⟨"primary", [⟨"primary", "f0"⟩], [⟨"primary", "m0"⟩, ⟨"X", "m1"⟩]⟩

/-- Observed state with no federation and no members. -/
def remoteC4 : Remote := ⟨"primary", [], []⟩

/-- Observed state where a federation exists but is named after a different
cluster, so the local cluster is not the primary. -/
def remoteC5 : Remote := ⟨"primary", [⟨"other", "f9"⟩], [⟨"primary", "m0"⟩]⟩

/-- Observed state with two non-local members X and Y for the query claims. -/
def remoteC9 : Remote := ⟨"primary", [⟨"primary", "f0"⟩], [mX, mY]⟩

/-- C1: in present mode with more than one observed member, the claim says the
diff removes every observed non-local member absent from the desired set and
adds every desired member absent from the observed set; at the claim's own
scenario D = {A, B}, O = [primary, A, C] the code instead removes nothing,
because the `member_exists` flag set when A matched is never reset before C is
examined, while B is still added. -/
theorem C1_sticky_flag_eval :
    computeRemoveList remoteC1.members remoteC1.localClusterName [cA, cB] = []
    ∧ computeAddList remoteC1.members [cA, cB] = [cB]
    ∧ (run remoteC1 (some [cA, cB]) .present false).requests =
        [Request.getClusters, Request.getFederations, Request.getMembers,
          Request.postMember (mkPayload cB), Request.getMembers] :=
  ⟨rfl, rfl, rfl⟩

/-- C2: the claim says check mode issues no POST or DELETE; at a present-mode
run whose plan contains the removal of member C, the code issues the member
DELETE even in check mode, because the removal loop of lines 228-230 is not
guarded by `module.check_mode` (only the addition POSTs are). -/
theorem C2_check_mode_delete_eval :
    (run remoteC2 (some [cA, cB]) .present true).requests =
      [Request.getClusters, Request.getFederations, Request.getMembers,
        Request.deleteMember "m2"]
    ∧ ((run remoteC2 (some [cA, cB]) .present true).requests.any Request.isMutating) = true :=
  ⟨rfl, rfl⟩

/-- C4: the claim says CreateFederation is issued exactly once when no
federation exists and additions are scheduled; with no federation and two
additions the code issues the federation POST twice — once before each member
POST — because the `if not federation_obj` test sits inside the addition loop
and the snapshot is never refreshed. -/
theorem C4_duplicate_create_eval :
    (run remoteC4 (some [cA, cB]) .present false).requests =
      [Request.getClusters, Request.getFederations, Request.getMembers,
        Request.postFederation "primary", Request.postMember (mkPayload cA),
        Request.postFederation "primary", Request.postMember (mkPayload cB),
        Request.getMembers]
    ∧ ((run remoteC4 (some [cA, cB]) .present false).requests.filter
        Request.isPostFederation).length = 2 :=
  ⟨rfl, rfl⟩

/-- C7: in present mode, when the observed member collection has at most one
entry, the plan adds every desired member — regardless of any overlap with the
observed entry — and schedules no removal. -/
theorem C7_bootstrap_shortcut (members : List Member) (localName : String)
    (cs : List Cluster) (h : members.length ≤ 1) :
    presentPlan members localName cs = ([], cs) := by
  unfold presentPlan
  rw [if_pos h]

/-- Witness for C7 at an observed collection of one entry whose host overlaps
the desired set: the overlapping desired member is still added and nothing is
removed. -/
theorem C7_bootstrap_shortcut_witness :
    ([(⟨"A", "m1"⟩ : Member)].length ≤ 1)
    ∧ presentPlan [⟨"A", "m1"⟩] "primary" [cA] = ([], [cA]) :=
  ⟨by decide, C7_bootstrap_shortcut [⟨"A", "m1"⟩] "primary" [cA] (by decide)⟩

/-- C10: a query-mode invocation — with or without a cluster list, in check
mode or not, whatever the observed state — issues no POST or DELETE request:
every request of its trace is a read. -/
theorem C10_query_read_only (remote : Remote) (clusters : Option (List Cluster))
    (checkMode : Bool) :
    ((run remote clusters .query checkMode).requests.all fun r => !r.isMutating) = true := by
  unfold run
  split
  · rfl
  next =>
    split
    · rfl
    next =>
      split
      · rfl
      · rfl

theorem removePass_eq_nil (localName : String) (cs : List Cluster) :
    ∀ (members : List Member),
      (∀ m ∈ members, m.host = localName ∨
        cs.any (fun c => (some m.host : Option String) == c.cluster_hostname) = true) →
      ∀ flag, removePass members localName cs flag = [] := by
  intro members
  induction members with
  | nil => intro _ _; rfl
  | cons m rest ih =>
    intro h flag
    have hrest := fun x hx => h x (List.mem_cons_of_mem _ hx)
    unfold removePass
    rcases h m (List.mem_cons_self _ _) with hl | hmatch
    · rw [if_pos (by simp [hl])]
      exact ih hrest flag
    · by_cases hc : (m.host == localName) = true
      · rw [if_pos hc]
        exact ih hrest flag
      · rw [if_neg hc]
        rw [if_pos (by rw [hmatch]; simp)]
        exact ih hrest _

theorem computeAddList_eq_nil (members : List Member) (cs : List Cluster)
    (h : ∀ c ∈ cs,
      members.any (fun m => (some m.host : Option String) == c.cluster_hostname) = true) :
    computeAddList members cs = [] := by
  unfold computeAddList
  rw [List.filter_eq_nil_iff]
  intro c hc
  rw [h c hc]
  simp

/-- C8: applying present-mode reconciliation when the observed member list is
the primary entry followed by entries matching exactly the desired hostnames —
the state left by a successful first present run — produces an empty plan:
nothing is removed and nothing is added. -/
theorem C8_second_run_empty_plan (localName : String) (pm : Member) (ms : List Member)
    (cs : List Cluster)
    (hpm : pm.host = localName)
    (h1 : ∀ m ∈ ms, ∃ c ∈ cs, c.cluster_hostname = some m.host)
    (h2 : ∀ c ∈ cs, ∃ m ∈ ms, c.cluster_hostname = some m.host) :
    presentPlan (pm :: ms) localName cs = ([], []) := by
  cases ms with
  | nil =>
    have hcs : cs = [] := by
      cases cs with
      | nil => rfl
      | cons c cs' =>
        rcases h2 c (List.mem_cons_self _ _) with ⟨m, hm, _⟩
        exact absurd hm (List.not_mem_nil m)
    subst hcs
    simp [presentPlan]
  | cons m0 ms' =>
    have hlen : ¬((pm :: m0 :: ms').length ≤ 1) := by simp
    have hrem : computeRemoveList (pm :: m0 :: ms') localName cs = [] := by
      apply removePass_eq_nil
      intro m hm
      rcases List.mem_cons.mp hm with rfl | hm'
      · exact Or.inl hpm
      · rcases h1 m hm' with ⟨c, hc, hcc⟩
        refine Or.inr (List.any_eq_true.mpr ⟨c, hc, ?_⟩)
        rw [hcc]
        exact beq_self_eq_true _
    have hadd : computeAddList (pm :: m0 :: ms') cs = [] := by
      apply computeAddList_eq_nil
      intro c hc
      rcases h2 c hc with ⟨m, hm, hcc⟩
      exact List.any_eq_true.mpr ⟨m, List.mem_cons_of_mem _ hm,
        by rw [hcc]; exact beq_self_eq_true _⟩
    unfold presentPlan
    rw [if_neg hlen, hrem, hadd]

/-- Witness for C8: desired set {A}, observed state primary followed by A —
the second-run plan is empty. -/
theorem C8_second_run_empty_plan_witness :
    (⟨"primary", "m0"⟩ : Member).host = "primary"
    ∧ presentPlan [⟨"primary", "m0"⟩, ⟨"A", "m1"⟩] "primary" [cA] = ([], []) :=
  ⟨rfl, C8_second_run_empty_plan "primary" ⟨"primary", "m0"⟩ [⟨"A", "m1"⟩] [cA] rfl
    (by decide) (by decide)⟩

/-- Counterexample to C3 as stated: when the sole observed member is not the
local cluster, absent mode removes it, the re-read count is 0 — which is ≤ 1 —
yet no DeleteFederation request is issued, because line 192 tests the count
with strict equality to 1. -/
theorem C3_counterexample :
    (absentRemovals remoteC3.members remoteC3.localClusterName remoteC3.members).1.length ≤ 1
    ∧ ((run remoteC3 none .absent false).requests.any Request.isDeleteFederation) = false :=
  ⟨by decide, rfl⟩

/-- Counterexample to C9 as stated: with two requested addresses X and Y both
matching observed entries, the claim says the result contains both matching
entries; the code returns only the single entry for Y, because each loop
iteration overwrites the previous result, so the entry for X is dropped. -/
theorem C9_counterexample :
    ((some mX.host : Option String) == cX.cluster_hostname) = true
    ∧ (run remoteC9 (some [cX, cY]) .query false).failed = none
    ∧ (run remoteC9 (some [cX, cY]) .query false).existing = ExistingValue.obj mY
    ∧ (run remoteC9 (some [cX, cY]) .query false).existing.containsMember mX = false :=
  ⟨rfl, rfl, rfl, rfl⟩

theorem validateClusters_absent (cs : List Cluster) : validateClusters cs .absent = none := by
  induction cs with
  | nil => rfl
  | cons c cs ih =>
    unfold validateClusters at ih ⊢
    rw [List.findSome?_cons]
    exact ih

theorem absentRemovals_no_fedDelete (localName : String) :
    ∀ (snap cur : List Member),
      ((absentRemovals snap localName cur).2.any Request.isDeleteFederation) = false := by
  intro snap
  induction snap with
  | nil => intro _; rfl
  | cons m rest ih =>
    intro cur
    unfold absentRemovals
    by_cases hc : (m.host == localName) = true
    · rw [if_pos hc]
      exact ih cur
    · rw [if_neg hc]
      exact ih _

theorem absentTrace_no_fedDelete (remote : Remote) :
    ((absentTrace remote
        [Request.getClusters, Request.getFederations, Request.getMembers]).any
      Request.isDeleteFederation) = false := by
  unfold absentTrace
  simp [absentRemovals_no_fedDelete, Request.isDeleteFederation]

theorem run_absent_eq (remote : Remote) (clusters : Option (List Cluster)) (checkMode : Bool)
    (hgate : remote.federations = [] ∨
      (findFederationInfo remote.federations remote.localClusterName).isSome = true) :
    run remote clusters .absent checkMode =
      runAbsent remote [Request.getClusters, Request.getFederations, Request.getMembers]
        (ExistingValue.list remote.members) checkMode := by
  unfold run
  rw [if_neg (by simp)]
  split
  next msg heq => rw [validateClusters_absent] at heq; cases heq
  next =>
    rw [if_neg ?hgateneg]
    case hgateneg =>
      rintro ⟨h1, h2, _⟩
      rcases hgate with h | h
      · exact h1 h
      · rw [h2] at h
        cases h
    rw [show computeExisting (clusters.getD []) .absent remote.members
          = ExistingValue.list remote.members from by
        unfold computeExisting
        rw [if_neg (by simp)]]

/-- C3 amended: in a non-dry-run absent reconciliation with a nonempty observed
member list, a DeleteFederation request is issued iff the member count re-read
after the removals equals exactly 1 and the federation list has an entry named
after the local cluster; the original claim's threshold of at most 1 does not
hold — a post-removal count of 0 issues no DeleteFederation. -/
theorem C3_post_removal_delete_iff (remote : Remote) (clusters : Option (List Cluster))
    (hgate : remote.federations = [] ∨
      (findFederationInfo remote.federations remote.localClusterName).isSome = true)
    (hne : remote.members ≠ []) :
    ((run remote clusters .absent false).requests.any Request.isDeleteFederation) = true
    ↔ (postAbsentMembers remote).length = 1
      ∧ (findFederationInfo remote.federations remote.localClusterName).isSome = true := by
  rw [run_absent_eq remote clusters false hgate]
  unfold runAbsent
  rw [if_pos (show (ExistingValue.list remote.members).toBool = true by
    simp [ExistingValue.toBool, hne])]
  rw [if_pos (show (!false) = true from rfl)]
  unfold postAbsentMembers
  split
  next hlen =>
    split
    next f heq =>
      simp only [List.any_append]
      constructor
      · intro _
        exact ⟨hlen, by rw [heq]; rfl⟩
      · intro _
        simp [Request.isDeleteFederation]
    next heq =>
      rw [absentTrace_no_fedDelete]
      simp [heq]
  next hlen =>
    rw [absentTrace_no_fedDelete]
    simp [hlen]

/-- Witness for the amended C3: with the primary member and one non-local
member observed, the removals leave exactly one member and DeleteFederation is
issued. -/
theorem C3_post_removal_delete_iff_witness :
    remoteW3.members ≠ []
    ∧ (((run remoteW3 none .absent false).requests.any Request.isDeleteFederation) = true
        ↔ (postAbsentMembers remoteW3).length = 1
          ∧ (findFederationInfo remoteW3.federations remoteW3.localClusterName).isSome = true) :=
  ⟨by decide, C3_post_removal_delete_iff remoteW3 none (Or.inr (by decide)) (by decide)⟩

/-- C5: when a federation exists and no entry of it is named after the local
cluster, every present or absent run fails with the not-primary message while
its request trace holds no POST or DELETE, and a query run does not fail. -/
theorem C5_primary_gate (remote : Remote) (clusters : Option (List Cluster)) (checkMode : Bool)
    (hfed : remote.federations ≠ [])
    (hnp : findFederationInfo remote.federations remote.localClusterName = none) :
    (∀ state : StateParam, state ≠ .query →
      ¬(state = .present ∧ clusters = none) →
      validateClusters (clusters.getD []) state = none →
      (run remote clusters state checkMode).failed = some notPrimaryMsg
      ∧ ((run remote clusters state checkMode).requests.all fun r => !r.isMutating) = true)
    ∧ (validateClusters (clusters.getD []) .query = none →
      (run remote clusters .query checkMode).failed = none) := by
  constructor
  · intro state hs hnc hval
    unfold run
    rw [if_neg hnc]
    split
    next msg heq => rw [hval] at heq; cases heq
    next =>
      rw [if_pos ⟨hfed, hnp, hs⟩]
      exact ⟨rfl, rfl⟩
  · intro hval
    unfold run
    rw [if_neg (by simp)]
    split
    next msg heq => rw [hval] at heq; cases heq
    next =>
      rw [if_neg (by simp)]

/-- Witness for C5: a federation named "other" with local cluster "primary" —
the present run fails before any mutation and the query run succeeds. -/
theorem C5_primary_gate_witness :
    remoteC5.federations ≠ []
    ∧ (run remoteC5 (some [cA]) .present false).failed = some notPrimaryMsg
    ∧ ((run remoteC5 (some [cA]) .present false).requests.all fun r => !r.isMutating) = true
    ∧ (run remoteC5 (some [cX]) .query false).failed = none :=
  ⟨by decide,
    ((C5_primary_gate remoteC5 (some [cA]) false (by decide) (by decide)).1 .present
      (by decide) (by simp) (by decide)).1,
    ((C5_primary_gate remoteC5 (some [cA]) false (by decide) (by decide)).1 .present
      (by decide) (by simp) (by decide)).2,
    (C5_primary_gate remoteC5 (some [cX]) false (by decide) (by decide)).2 (by decide)⟩

theorem getD_mem {α : Type} (l : List α) (d : α) (i : Nat) (h : i < l.length) :
    l.getD i d ∈ l := by
  rw [List.getD_eq_getElem l d h]
  exact List.getElem_mem h

theorem split_order (l a b : List Request) (hl : l = a ++ b)
    (ha : ∀ r ∈ a, r.isPostMember = false)
    (hb : ∀ r ∈ b, r.isDeleteMember = false)
    (i j : Nat)
    (hi : (l.getD i Request.getClusters).isDeleteMember = true)
    (hj : (l.getD j Request.getClusters).isPostMember = true) :
    i < j := by
  subst hl
  have hia : i < a.length := by
    by_contra hc
    push_neg at hc
    rw [List.getD_append_right a b _ i hc] at hi
    by_cases hib : i - a.length < b.length
    · rw [hb _ (getD_mem b _ _ hib)] at hi
      exact Bool.noConfusion hi
    · rw [List.getD_eq_default _ _ (Nat.le_of_not_lt hib)] at hi
      exact Bool.noConfusion hi
  have hja : a.length ≤ j := by
    by_contra hc
    push_neg at hc
    rw [List.getD_append a b _ j hc] at hj
    rw [ha _ (getD_mem a _ _ hc)] at hj
    exact Bool.noConfusion hj
  exact Nat.lt_of_lt_of_le hia hja

theorem reads_no_postMember :
    ∀ r ∈ [Request.getClusters, Request.getFederations, Request.getMembers],
      r.isPostMember = false := by decide

theorem presentRemovalReqs_no_postMember (removes : List Member) :
    ∀ r ∈ presentRemovalReqs removes, r.isPostMember = false := by
  intro r hr
  rcases List.mem_map.mp hr with ⟨m, _, rfl⟩
  rfl

theorem presentAddReqs_no_deleteMember (adds : List Cluster) (fedExists : Bool)
    (localName : String) :
    ∀ r ∈ presentAddReqs adds fedExists localName, r.isDeleteMember = false := by
  intro r hr
  unfold presentAddReqs at hr
  rcases List.mem_flatMap.mp hr with ⟨c, _, hc⟩
  rcases List.mem_append.mp hc with h1 | h2
  · cases fedExists with
    | true => simp at h1
    | false =>
      have : r = Request.postFederation localName := by simpa using h1
      subst this
      rfl
  · have : r = Request.postMember (mkPayload c) := by simpa using h2
    subst this
    rfl

theorem run_present_split (remote : Remote) (cs : List Cluster) (checkMode : Bool) :
    ∃ a b, (run remote (some cs) .present checkMode).requests = a ++ b
      ∧ (∀ r ∈ a, r.isPostMember = false)
      ∧ (∀ r ∈ b, r.isDeleteMember = false) := by
  unfold run
  rw [if_neg (by simp)]
  simp only [Option.getD_some]
  cases hval : validateClusters cs .present with
  | some msg => exact ⟨[], [], rfl, by simp, by simp⟩
  | none =>
    by_cases hgate : remote.federations ≠ [] ∧
        findFederationInfo remote.federations remote.localClusterName = none ∧
        StateParam.present ≠ StateParam.query
    · rw [if_pos hgate]
      refine ⟨[Request.getClusters, Request.getFederations], [],
        (List.append_nil _).symm, ?_, by simp⟩
      intro r hr
      have : r = Request.getClusters ∨ r = Request.getFederations := by simpa using hr
      rcases this with rfl | rfl <;> rfl
    · rw [if_neg hgate]
      unfold runPresent
      by_cases hplan : (presentPlan remote.members remote.localClusterName cs).2 = []
          ∧ (presentPlan remote.members remote.localClusterName cs).1 = []
      · rw [if_pos hplan]
        exact ⟨[Request.getClusters, Request.getFederations, Request.getMembers], [],
          (List.append_nil _).symm, reads_no_postMember, by simp⟩
      · rw [if_neg hplan]
        by_cases hcm : checkMode = true
        · rw [if_pos hcm]
          refine ⟨[Request.getClusters, Request.getFederations, Request.getMembers] ++
            presentRemovalReqs (presentPlan remote.members remote.localClusterName cs).1, [],
            (List.append_nil _).symm, ?_, by simp⟩
          intro r hr
          rcases List.mem_append.mp hr with h3 | hmap
          · exact reads_no_postMember r h3
          · exact presentRemovalReqs_no_postMember _ r hmap
        · rw [if_neg hcm]
          refine ⟨[Request.getClusters, Request.getFederations, Request.getMembers] ++
            presentRemovalReqs (presentPlan remote.members remote.localClusterName cs).1,
            presentAddReqs (presentPlan remote.members remote.localClusterName cs).2
              (!remote.federations.isEmpty) remote.localClusterName ++ [Request.getMembers],
            ?_, ?_, ?_⟩
          · simp [List.append_assoc]
          · intro r hr
            rcases List.mem_append.mp hr with h3 | hmap
            · exact reads_no_postMember r h3
            · exact presentRemovalReqs_no_postMember _ r hmap
          · intro r hr
            rcases List.mem_append.mp hr with hadd | hgm
            · exact presentAddReqs_no_deleteMember _ _ _ r hadd
            · have : r = Request.getMembers := by simpa using hgm
              subst this
              rfl

/-- C6: in any present-mode run, every member DELETE request in the trace has
a strictly smaller index than every member POST request: all removals are
issued before any addition. -/
theorem C6_removals_before_additions (remote : Remote) (cs : List Cluster) (checkMode : Bool)
    (i j : Nat)
    (hi : (((run remote (some cs) .present checkMode).requests.getD i
      Request.getClusters).isDeleteMember) = true)
    (hj : (((run remote (some cs) .present checkMode).requests.getD j
      Request.getClusters).isPostMember) = true) :
    i < j := by
  obtain ⟨a, b, hl, ha, hb⟩ := run_present_split remote cs checkMode
  exact split_order _ a b hl ha hb i j hi hj

/-- Witness for C6 at a run whose plan removes C and adds B: the DELETE sits at
index 3 and the POST at index 4 of the trace, and 3 < 4. -/
theorem C6_removals_before_additions_witness :
    (((run remoteC2 (some [cA, cB]) .present false).requests.getD 3
      Request.getClusters).isDeleteMember) = true
    ∧ (((run remoteC2 (some [cA, cB]) .present false).requests.getD 4
      Request.getClusters).isPostMember) = true
    ∧ 3 < 4 :=
  ⟨rfl, rfl, C6_removals_before_additions remoteC2 [cA, cB] false 3 4 rfl rfl⟩

theorem queryFold_eq (members : List Member) :
    ∀ (cs : List Cluster) (acc : ExistingValue),
      cs.foldl
        (fun acc c =>
          match members.find?
              (fun m => (some m.host : Option String) == c.cluster_hostname) with
          | some m => ExistingValue.obj m
          | none => acc)
        acc
      = match cs.reverse.findSome?
            (fun c => members.find?
              (fun m => (some m.host : Option String) == c.cluster_hostname)) with
        | some m => ExistingValue.obj m
        | none => acc := by
  intro cs
  induction cs with
  | nil => intro acc; rfl
  | cons c rest ih =>
    intro acc
    rw [List.foldl_cons, ih, List.reverse_cons, List.findSome?_append]
    cases h1 : rest.reverse.findSome?
        (fun c => members.find?
          (fun m => (some m.host : Option String) == c.cluster_hostname)) with
    | some m => rfl
    | none =>
      show _ = match Option.or none (List.findSome? _ [c]) with
        | some m => ExistingValue.obj m
        | none => acc
      rw [Option.none_or, List.findSome?_cons]
      cases h2 : members.find?
          (fun m => (some m.host : Option String) == c.cluster_hostname) with
      | some m => rfl
      | none => rw [List.findSome?_nil]

/-- C9 amended: with specific addresses requested in query mode the result is
the single observed entry found for the last requested address that matches
anything (each iteration overwrites the previous result), requested addresses
with no matching entry are silently skipped, and with no cluster list the full
observed member list is returned without failing. -/
theorem C9_query_last_match (cs : List Cluster) (members : List Member) (remote : Remote)
    (checkMode : Bool) :
    queryExisting cs members = lastMatchResult cs members
    ∧ (run remote none .query checkMode).existing = ExistingValue.list remote.members
    ∧ (run remote none .query checkMode).failed = none := by
  refine ⟨?_, ?_, ?_⟩
  · unfold queryExisting lastMatchResult
    exact queryFold_eq members cs ExistingValue.emptyDict
  · unfold run
    rw [if_neg (by simp)]
    split
    next msg heq => simp [validateClusters] at heq
    next =>
      rw [if_neg (by simp)]
      rfl
  · unfold run
    rw [if_neg (by simp)]
    split
    next msg heq => simp [validateClusters] at heq
    next =>
      rw [if_neg (by simp)]

end NdFed
